import Mathlib

/-
  Verification development for backup.py, a configuration-driven rsync
  orchestrator.  The Python source is shallowly embedded below: pure helpers
  become Lean functions, the process-wide identifier registry becomes explicit
  state threaded through construction, filesystem probes and external tools
  (du, rsync, stdin) become oracle parameters, and the orchestrator main()
  becomes a trace-producing function.
-/

set_option maxRecDepth 4096
set_option linter.unusedVariables false

deriving instance DecidableEq for Except

/-- Filesystem oracle: results of os.access(p, R_OK), os.path.exists(p) and
os.access(p, W_OK).  The embedding is single threaded, so the filesystem is a
fixed value, mutated only by the one explicit write (os.makedirs). -/
structure FS where
  readable : String → Bool
  pathExists : String → Bool
  writable : String → Bool

/-- os.makedirs(p): afterwards p exists; readability and writability of paths
are left to the oracle. -/
def FS.mkdirs (fs : FS) (p : String) : FS :=
  { fs with pathExists := fun q => if q = p then true else fs.pathExists q }

/-- Python s.endswith for the one-character suffix slash: the last character
is a slash.  Implemented over the character list so that it evaluates in the
kernel. -/
def endsSlash (s : String) : Bool := s.data.getLast? == some '/'

/-- Python s.startswith for a single leading slash. -/
def startsSlash (s : String) : Bool := s.data.head? == some '/'

/-- trim_trailing_slash from backup.py: drop one trailing "/" if present. -/
def trim_trailing_slash (s : String) : String :=
  if endsSlash s then String.mk s.data.dropLast else s

/-- os.path.basename: the part of the string after the last "/". -/
def basename (s : String) : String :=
  String.mk ((s.data.reverse.takeWhile (fun c => c != '/')).reverse)

/-- Python s.strip(): surrounding whitespace removed. -/
def stripWs (s : String) : String :=
  String.mk (((s.data.dropWhile Char.isWhitespace).reverse.dropWhile
    Char.isWhitespace).reverse)

/-- The identifier a Source built from raw path s receives:
basename of the slash-trimmed path (Source.__init__). -/
def idnOf (s : String) : String := basename (trim_trailing_slash s)

/-- Python str.join with separator ",": empty string on the empty list,
the elements separated by commas otherwise. -/
def joinComma : List String → String
  | [] => ""
  | [x] => x
  | x :: y :: ys => x ++ "," ++ joinComma (y :: ys)

/-- os.path.join for the two-argument uses in backup.py. -/
def joinPath (a b : String) : String :=
  if startsSlash b then b
  else if a = "" then b
  else if endsSlash a then a ++ b
  else a ++ "/" ++ b

/-- The class attribute Source.identifiers: a process-wide map from identifier
to the first raw path string registered under it.  Modelled as an association
list; a key is inserted at most once (guarded in mkSource), so lookup always
returns the first-seen value. -/
abbrev Reg := List (String × String)

/-- One Source entity: slash-trimmed path, derived identifier, exclusion
patterns, and the uniqueness verdict recorded at construction time. -/
structure Source where
  path : String
  idn : String
  excludes : List String
  unique : Bool
  deriving Repr, DecidableEq

/-- Source.__init__(s): trim the trailing slash, derive the identifier, and
decide uniqueness against the process-wide registry, registering the raw
string s under the identifier when it is new. -/
def mkSource (reg : Reg) (s : String) : Source × Reg :=
  match reg.lookup (idnOf s) with
  | some _ => ({ path := trim_trailing_slash s, idn := idnOf s,
                 excludes := [], unique := false }, reg)
  | none   => ({ path := trim_trailing_slash s, idn := idnOf s,
                 excludes := [], unique := true }, (idnOf s, s) :: reg)

/-- Source.readable: os.access(self.path, os.R_OK). -/
def Source.readable (fs : FS) (src : Source) : Bool := fs.readable src.path

/-- Source.unique_idn: returns the uniqueness flag stored at construction. -/
def Source.unique_idn (src : Source) : Bool := src.unique

/-- The errs list accumulated inside Source.err: the readability check and the
uniqueness check run independently, in this order.  For a non-unique source
the registry lookup always succeeds (the identifier was registered by the
first source carrying it), so the getD default is never used in the program.
-/
def Source.errs (fs : FS) (reg : Reg) (src : Source) : List String :=
  (if src.readable fs then [] else ["not readable"]) ++
  (if src.unique_idn then []
   else [src.idn ++ " conflicts with " ++ ((reg.lookup src.idn).getD "")])

/-- Source.err: the comma-joined failure reasons; the empty string means the
source passed the sanity check. -/
def Source.err (fs : FS) (reg : Reg) (src : Source) : String :=
  joinComma (Source.errs fs reg src)

/-- The instance attribute dictionary entries relevant to Source.size.
The hasattr guard in Source.size tests an attribute literally named
double-underscore size, while the assignment self.__size = ... inside class
Source is name-mangled by Python and stores under _Source__size.  The two
slots are therefore distinct and modelled as two separate fields. -/
structure SizeState where
  attr_dunder_size : Option String := none
  attr_mangled_size : Option String := none
  deriving Repr, DecidableEq

/-- The argument list of the du invocation made by Source.size. -/
def Source.duArgs (src : Source) : List String :=
  src.excludes.foldl (fun a e => a ++ ["--exclude", src.path ++ "/" ++ e])
    ["du", "-sh", src.path]

/-- Source.size: the du oracle maps an argument list and the index of the
invocation (within the process) to the first whitespace token of the tool
output.  Returns the value, the instance state afterwards, and the new
invocation count; none models the AttributeError that reading the mangled
slot would raise were the hasattr guard ever to succeed without it being set.
-/
def Source.sizeCall (du : List String → Nat → String) (src : Source)
    (st : SizeState) (ncalls : Nat) : Option (String × SizeState × Nat) :=
  if st.attr_dunder_size.isSome then
    st.attr_mangled_size.map (fun v => (v, st, ncalls))
  else
    let v := du (Source.duArgs src) ncalls
    some (v, { st with attr_mangled_size := some v }, ncalls + 1)

/-- The Target entity: path stripped of surrounding whitespace. -/
structure Target where
  path : String
  deriving Repr, DecidableEq

/-- Target.__init__(s): path = s.strip(). -/
def mkTarget (s : String) : Target := { path := stripWs s }

/-- Target.exists: os.path.exists(self.path). -/
def Target.existsB (fs : FS) (t : Target) : Bool := fs.pathExists t.path

/-- Target.writable: os.access(self.path, os.W_OK). -/
def Target.writableB (fs : FS) (t : Target) : Bool := fs.writable t.path

/-- Target.sanity: exists and writable. -/
def Target.sanity (fs : FS) (t : Target) : Bool :=
  t.existsB fs && t.writableB fs

/-- The argument list of the rsync invocation made by Target.rsync for one
source: fixed flag block, then one pair of arguments per exclusion pattern,
then the source path and the target root. -/
def Target.rsyncArgs (t : Target) (src : Source) : List String :=
  (src.excludes.foldl (fun a e => a ++ ["--exclude", src.idn ++ "/" ++ e])
    ["rsync", "-i", "--info=progress2", "-a", "--links", "--delete",
     "--delete-excluded"])
  ++ [src.path, t.path]

/-- confirm(s, skipped): none means the gate proceeds; some c means
sys.exit(c).  When skipped, the gate returns at once without reading input;
otherwise one line is read and only the exact answer y proceeds, everything
else exits with code 3. -/
def confirm (skipped : Bool) (ans : String) : Option Nat :=
  if skipped then none
  else if ans = "y" then none else some 3

/-- The values json.load can produce, as far as this program inspects them. -/
inductive JVal where
  | jstr : String → JVal
  | jlist : List JVal → JVal
  | jobj : List (String × JVal) → JVal
  | jnum : Int → JVal
  | jbool : Bool → JVal
  | jnull : JVal

/-- makelist(l): a bare string becomes a one-element list; anything else is
returned unchanged. -/
def makelist (l : JVal) : JVal :=
  match l with
  | .jstr s => .jlist [.jstr s]
  | _ => l

/-- getpath(item): for a dict, item[quoted path] (KeyError when absent); any
other value is returned unchanged. -/
def getpath (item : JVal) : Except String JVal :=
  match item with
  | .jobj kvs =>
    match kvs.lookup "path" with
    | some v => .ok v
    | none => .error "KeyError: path"
  | _ => .ok item

/-- getexclude(item): a non-dict yields the empty list; for a dict the
exclude entry is read unconditionally, so a dict without it raises KeyError,
and the value found is normalized through makelist. -/
def getexclude (item : JVal) : Except String JVal :=
  match item with
  | .jobj kvs =>
    match kvs.lookup "exclude" with
    | some v => .ok (makelist v)
    | none => .error "KeyError: exclude"
  | _ => .ok (.jlist [])

/-- Reading the elements of a list value as strings.  In Python a non-string
element would only fail later (string concatenation inside du or rsync
argument building); the embedding surfaces that failure at load time. -/
def strElems : List JVal → Except String (List String)
  | [] => .ok []
  | .jstr s :: rest => (strElems rest).map (fun xs => s :: xs)
  | _ :: _ => .error "TypeError: non-string exclude element"

/-- The iteration over the makelist result inside readconfig: a list yields
its elements, a dict yields its keys (Python dict iteration), a string yields
its characters, anything else raises TypeError. -/
def iterExclude : JVal → Except String (List String)
  | .jlist l => strElems l
  | .jobj kvs => .ok (kvs.map Prod.fst)
  | .jstr s => .ok (s.data.map (fun c => String.mk [c]))
  | _ => .error "TypeError: not iterable"

/-- The source-construction loop of readconfig.  For each entry, in order:
evaluate getpath, construct the Source (registering its identifier), then
evaluate getexclude and append each pattern.  An error aborts the loop but
keeps the registry mutations already made, as the raised exception would in
Python. -/
def processEntries (reg : Reg) : List JVal → Except String (List Source) × Reg
  | [] => (.ok [], reg)
  | item :: rest =>
    match getpath item with
    | .error e => (.error e, reg)
    | .ok pv =>
      match pv with
      | .jstr ps =>
        let pr := mkSource reg ps
        match getexclude item with
        | .error e => (.error e, pr.2)
        | .ok ev =>
          match iterExclude ev with
          | .error e => (.error e, pr.2)
          | .ok excls =>
            match processEntries pr.2 rest with
            | (.ok srcs, regf) =>
              (.ok ({ pr.1 with excludes := pr.1.excludes ++ excls } :: srcs), regf)
            | (.error e, regf) => (.error e, regf)
      | _ => (.error "AttributeError: path is not a string", reg)

/-- readconfig on an already parsed document: the basic sanity assert
(exactly two keys, sources a list, target a string, checked left to right
with Python short-circuit and KeyError semantics), then the source loop, then
target construction.  The returned registry is the state of
Source.identifiers after the call, also on failure. -/
def readconfig (doc : JVal) (reg : Reg) :
    Except String (List Source × Target) × Reg :=
  match doc with
  | .jobj kvs =>
    if kvs.length = 2 then
      match kvs.lookup "sources" with
      | none => (.error "KeyError: sources", reg)
      | some sv =>
        match sv with
        | .jlist entries =>
          match kvs.lookup "target" with
          | none => (.error "KeyError: target", reg)
          | some tv =>
            match tv with
            | .jstr ts =>
              match processEntries reg entries with
              | (.ok srcs, regf) => (.ok (srcs, mkTarget ts), regf)
              | (.error e, regf) => (.error e, regf)
            | _ => (.error "AssertionError", reg)
        | _ => (.error "AssertionError", reg)
    else (.error "AssertionError", reg)
  | _ => (.error "AttributeError: keys", reg)

/-- The strict two-key schema: a dict with exactly two keys, sources mapped
to a list and target mapped to a string. -/
def schemaOk (doc : JVal) : Bool :=
  match doc with
  | .jobj kvs =>
    (kvs.length == 2) &&
    (match kvs.lookup "sources" with
     | some (.jlist _) => true
     | _ => false) &&
    (match kvs.lookup "target" with
     | some (.jstr _) => true
     | _ => false)
  | _ => false

/-- The pure Source-construction sequence: fold mkSource over a list of raw
path strings, threading the process-wide registry, as the readconfig loop
does for the paths of its entries. -/
def buildSources (reg : Reg) : List String → List Source × Reg
  | [] => ([], reg)
  | s :: rest =>
    let p := mkSource reg s
    let q := buildSources p.2 rest
    (p.1 :: q.1, q.2)

/-- The observable actions of one run of main, in order. -/
inductive Event where
  | showSource (path : String)
  | showDest (loc : String)
  | readInput (prompt : String)
  | mkdirCall (path : String)
  | rsyncCall (args : List String) (exitCode : Int)
  deriving Repr, DecidableEq

/-- How a run of main ends: sys.exit with a code, an AssertionError, or
falling off the end of main (process exit status 0). -/
inductive MainResult where
  | exited (code : Nat)
  | assertFail
  | completed
  deriving Repr, DecidableEq

/-- Target.create: assert that the target does not exist, run the
confirmation gate (skipped is not passed, so input is always read), then
os.makedirs; a makedirs failure is caught and turned into err, which is
sys.exit(1). -/
def Target.create (fs : FS) (ans : String) (mkdirOk : Bool) (t : Target) :
    List Event × Except MainResult FS :=
  if t.existsB fs then
    ([], .error .assertFail)
  else
    match confirm false ans with
    | some c => ([.readInput "create?"], .error (.exited c))
    | none =>
      if mkdirOk then
        ([.readInput "create?", .mkdirCall t.path], .ok (fs.mkdirs t.path))
      else
        ([.readInput "create?", .mkdirCall t.path], .error (.exited 1))

/-- The rsync loop of main: one Target.rsync call per source, in order.  The
exit code of the n-th invocation is given by the oracle and recorded in the
event; subprocess.call discards it, so it influences nothing else. -/
def rsyncEvents (rsyncExit : Nat → Int) (t : Target) :
    Nat → List Source → List Event
  | _, [] => []
  | i, s :: rest =>
    Event.rsyncCall (t.rsyncArgs s) (rsyncExit i)
      :: rsyncEvents rsyncExit t (i + 1) rest

/-- main, after readconfig: show every source; exit 1 if any source has a
nonempty err; create the target when missing (gated); exit 1 when the target
is not writable; assert sanity; show every destination; run the final gate;
then rsync every source.  The inputs oracle yields the successive lines read
from standard input.  The autoconfirm flag is accepted here because getargs
parses it, but, exactly as in the source, it is never consulted: both confirm
call sites rely on the default skipped value False. -/
def mainRun (fs : FS) (inputs : Nat → String) (rsyncExit : Nat → Int)
    (mkdirOk : Bool) (autoconfirm : Bool)
    (srcs : List Source) (reg : Reg) (tgt : Target) :
    List Event × MainResult :=
  let showEvs := srcs.map (fun s => Event.showSource s.path)
  if srcs.any (fun s => Source.err fs reg s != "") then
    (showEvs, .exited 1)
  else
    let prep : List Event × Except MainResult (FS × Nat) :=
      if tgt.existsB fs then ([], .ok (fs, 0))
      else
        match Target.create fs (inputs 0) mkdirOk tgt with
        | (evs, .ok fs2) => (evs, .ok (fs2, 1))
        | (evs, .error r) => (evs, .error r)
    match prep with
    | (evs, .error r) => (showEvs ++ evs, r)
    | (evs, .ok (fs2, nin)) =>
      if !(tgt.writableB fs2) then (showEvs ++ evs, .exited 1)
      else if !(tgt.sanity fs2) then (showEvs ++ evs, .assertFail)
      else
        let destEvs := srcs.map (fun s => Event.showDest (joinPath tgt.path s.idn))
        match confirm false (inputs nin) with
        | some c =>
          (showEvs ++ evs ++ destEvs ++ [Event.readInput "Proceed?"], .exited c)
        | none =>
          (showEvs ++ evs ++ destEvs ++ [Event.readInput "Proceed?"]
             ++ rsyncEvents rsyncExit tgt 0 srcs, .completed)

/-- A filesystem on which every path is readable, existing and writable. -/
def fsAll : FS :=
  { readable := fun _ => true, pathExists := fun _ => true,
    writable := fun _ => true }

/-- A filesystem on which no path is readable, but paths exist and are
writable. -/
def fsNoRead : FS :=
  { readable := fun _ => false, pathExists := fun _ => true,
    writable := fun _ => true }

lemma append3_ne_empty (a b c : String) (hb : b.length ≠ 0) :
    a ++ b ++ c ≠ "" := by
  intro h
  have h2 := congrArg String.length h
  simp [String.length_append] at h2
  exact hb h2.1.2

lemma mkSource_path (reg : Reg) (s : String) :
    (mkSource reg s).1.path = trim_trailing_slash s := by
  unfold mkSource
  rcases h : reg.lookup (idnOf s) with _ | v <;> simp [h]

lemma mkSource_idn (reg : Reg) (s : String) :
    (mkSource reg s).1.idn = idnOf s := by
  unfold mkSource
  rcases h : reg.lookup (idnOf s) with _ | v <;> simp [h]

lemma mkSource_excludes (reg : Reg) (s : String) :
    (mkSource reg s).1.excludes = [] := by
  unfold mkSource
  rcases h : reg.lookup (idnOf s) with _ | v <;> simp [h]

lemma mkSource_unique (reg : Reg) (s : String) :
    (mkSource reg s).1.unique = !(reg.lookup (idnOf s)).isSome := by
  unfold mkSource
  rcases h : reg.lookup (idnOf s) with _ | v <;> simp [h]

lemma mkSource_snd_lookup (reg : Reg) (s k : String) :
    (((mkSource reg s).2).lookup k).isSome
      ↔ (reg.lookup k).isSome ∨ idnOf s = k := by
  unfold mkSource
  rcases h : reg.lookup (idnOf s) with _ | v
  · simp only [h]
    by_cases hk : k = idnOf s
    · subst hk
      simp [List.lookup]
    · have hb : (k == idnOf s) = false :=
        beq_eq_false_iff_ne.mpr hk
      simp [List.lookup, hb]
      intro hs
      exact absurd hs.symm hk
  · simp only [h]
    constructor
    · intro hs; exact Or.inl hs
    · rintro (hs | hs)
      · exact hs
      · subst hs; simp [h]

lemma err_eq_empty_iff (fs : FS) (reg : Reg) (src : Source) :
    Source.err fs reg src = "" ↔
      (src.readable fs = true ∧ src.unique = true) := by
  unfold Source.err Source.errs Source.unique_idn
  by_cases hr : src.readable fs
  · by_cases hu : src.unique
    · simp [hr, hu, joinComma]
    · simp only [hr, hu, if_true, if_false, List.nil_append]
      simp [joinComma]
      exact append3_ne_empty _ " conflicts with " _ (by decide)
  · by_cases hu : src.unique
    · simp only [hr, hu, if_true, if_false, List.append_nil]
      simp [joinComma]
    · simp only [hr, hu, if_false]
      simp [joinComma]
      exact append3_ne_empty "not readable" "," _ (by decide)

lemma strElems_map_jstr (l : List String) :
    strElems (l.map JVal.jstr) = Except.ok l := by
  induction l with
  | nil => rfl
  | cons x xs ih => simp [strElems, ih, Except.map]

/-- Claim C2 (code bug): the spec says querying the size twice returns the
identical string and runs du at most once.  In the code the memoization guard
hasattr(self, unmangled __size) never holds, because the assignment stores
under the name-mangled _Source__size; so every size() call runs du again, and
two calls can return different strings.  Here: two successive calls from a
fresh instance state run du at invocation indices 0 and 1 (the counter
reaches 2) and return the two different tokens du reported. -/
theorem C2_size_recomputes :
    (Source.sizeCall (fun _ n => if n = 0 then "1.0G" else "1.1G")
        { path := "/data/photos", idn := "photos", excludes := [], unique := true }
        {} 0
      = some ("1.0G",
          { attr_dunder_size := none, attr_mangled_size := some "1.0G" }, 1))
  ∧ (Source.sizeCall (fun _ n => if n = 0 then "1.0G" else "1.1G")
        { path := "/data/photos", idn := "photos", excludes := [], unique := true }
        { attr_dunder_size := none, attr_mangled_size := some "1.0G" } 1
      = some ("1.1G",
          { attr_dunder_size := none, attr_mangled_size := some "1.1G" }, 2)) := by
  constructor <;> decide

/-- Claim C3, counterexample: a source entry that is an object with a path
but no exclude field does not yield a Source with an empty exclusion list;
the loader raises KeyError on the exclude access.  The Source itself was
already constructed and registered before the access. -/
theorem C3_counterexample :
    (processEntries [] [JVal.jobj [("path", JVal.jstr "/data/photos")]])
        = (Except.error "KeyError: exclude", [("photos", "/data/photos")])
    ∧ (processEntries [] [JVal.jobj [("path", JVal.jstr "/data/photos")]]).1
        ≠ Except.ok [{ path := "/data/photos", idn := "photos", excludes := [],
                       unique := true }] := by
  constructor <;> decide

/-- Claim C3 as amended: a bare path string yields a Source with the trimmed
path and an empty exclusion list; an object entry with a single-string
exclude yields a one-element list, and with a list exclude yields that list
unchanged in order; but an object entry whose exclude field is absent makes
loading fail with a KeyError (after registering the Source), rather than
yielding an empty exclusion list. -/
theorem C3_exclude_normalization (p e : String) (l : List String) (reg : Reg) :
    (∃ src, processEntries reg [JVal.jstr p]
         = (Except.ok [src], (mkSource reg p).2)
       ∧ src.path = trim_trailing_slash p ∧ src.excludes = [])
  ∧ (∃ src, processEntries reg
         [JVal.jobj [("path", JVal.jstr p), ("exclude", JVal.jstr e)]]
         = (Except.ok [src], (mkSource reg p).2)
       ∧ src.path = trim_trailing_slash p ∧ src.excludes = [e])
  ∧ (∃ src, processEntries reg
         [JVal.jobj [("path", JVal.jstr p),
                     ("exclude", JVal.jlist (l.map JVal.jstr))]]
         = (Except.ok [src], (mkSource reg p).2)
       ∧ src.path = trim_trailing_slash p ∧ src.excludes = l)
  ∧ (∃ msg, processEntries reg [JVal.jobj [("path", JVal.jstr p)]]
         = (Except.error msg, (mkSource reg p).2)) := by
  have hx := mkSource_excludes reg p
  have hp := mkSource_path reg p
  refine ⟨⟨{ (mkSource reg p).1 with
              excludes := (mkSource reg p).1.excludes ++ [] }, rfl, ?_, ?_⟩,
          ⟨{ (mkSource reg p).1 with
              excludes := (mkSource reg p).1.excludes ++ [e] }, rfl, ?_, ?_⟩,
          ?_,
          ⟨"KeyError: exclude", rfl⟩⟩
  · simpa using hp
  · simp [hx]
  · simpa using hp
  · simp [hx]
  · refine ⟨{ (mkSource reg p).1 with
              excludes := (mkSource reg p).1.excludes ++ l }, ?_, ?_, ?_⟩
    · show (match iterExclude (makelist (JVal.jlist (l.map JVal.jstr))) with
        | .error e => (Except.error e, (mkSource reg p).2)
        | .ok excls =>
          match processEntries (mkSource reg p).2 [] with
          | (.ok srcs, regf) =>
            (Except.ok ({ (mkSource reg p).1 with
                excludes := (mkSource reg p).1.excludes ++ excls } :: srcs), regf)
          | (.error e2, regf) => (Except.error e2, regf)) = _
      simp [makelist, iterExclude, strElems_map_jstr, processEntries]
    · simpa using hp
    · simp [hx]

/-- Claim C7: in interactive mode the gate proceeds exactly on the answer y;
every other line (the empty one included) exits with code 3, an exit distinct
from the error exit 1. -/
theorem C7_confirm_exact_y (ans : String) :
    (confirm false ans = none ↔ ans = "y")
  ∧ (confirm false ans = none ∨ confirm false ans = some 3)
  ∧ MainResult.exited 3 ≠ MainResult.exited 1 := by
  by_cases h : ans = "y" <;> simp [confirm, h]

/-- Witness for C7 at the empty input line. -/
theorem C7_w :
    (confirm false "" = none ↔ ("" : String) = "y")
  ∧ (confirm false "" = none ∨ confirm false "" = some 3)
  ∧ MainResult.exited 3 ≠ MainResult.exited 1 :=
  C7_confirm_exact_y ""

/-- Claim C8: a document that is not a dict with exactly the two keys
sources (a list) and target (a string) is rejected, and the identifier
registry is left untouched: readconfig returns the registry it was given. -/
theorem C8_schema_rejection (doc : JVal) (reg : Reg)
    (h : schemaOk doc = false) :
    ∃ msg, readconfig doc reg = (Except.error msg, reg) := by
  cases doc with
  | jobj kvs =>
    simp only [readconfig]
    by_cases hlen : kvs.length = 2
    · rw [if_pos hlen]
      rcases hs : kvs.lookup "sources" with _ | sv
      · exact ⟨_, rfl⟩
      · cases sv with
        | jlist entries =>
          rcases ht : kvs.lookup "target" with _ | tv
          · exact ⟨_, rfl⟩
          · cases tv with
            | jstr ts =>
              exfalso
              simp [schemaOk, hlen, hs, ht] at h
            | jlist l2 => exact ⟨_, rfl⟩
            | jobj kvs2 => exact ⟨_, rfl⟩
            | jnum n2 => exact ⟨_, rfl⟩
            | jbool b2 => exact ⟨_, rfl⟩
            | jnull => exact ⟨_, rfl⟩
        | jstr s2 => exact ⟨_, rfl⟩
        | jobj kvs2 => exact ⟨_, rfl⟩
        | jnum n2 => exact ⟨_, rfl⟩
        | jbool b2 => exact ⟨_, rfl⟩
        | jnull => exact ⟨_, rfl⟩
    · rw [if_neg hlen]; exact ⟨_, rfl⟩
  | jstr s => exact ⟨_, rfl⟩
  | jlist l2 => exact ⟨_, rfl⟩
  | jnum n => exact ⟨_, rfl⟩
  | jbool b => exact ⟨_, rfl⟩
  | jnull => exact ⟨_, rfl⟩

/-- Witness for C8: a document with a third top-level key is rejected with
the registry untouched. -/
theorem C8_w :
    schemaOk (JVal.jobj [("sources", JVal.jlist []),
        ("target", JVal.jstr "/backup"), ("extra", JVal.jnull)]) = false
  ∧ ∃ msg, readconfig (JVal.jobj [("sources", JVal.jlist []),
        ("target", JVal.jstr "/backup"), ("extra", JVal.jnull)]) []
      = (Except.error msg, []) :=
  ⟨rfl, C8_schema_rejection _ _ rfl⟩

/-- Claim C9: the readability and uniqueness checks of Source.err run
independently: an unreadable path contributes the not readable reason
whatever the uniqueness verdict, a non-unique identifier contributes the
conflict reason whatever the readability, both reasons appear joined by a
comma when both fail, and the rendered err is empty exactly when the reason
list is empty. -/
theorem C9_err_independent (fs : FS) (reg : Reg) (src : Source) :
    (src.readable fs = false → "not readable" ∈ Source.errs fs reg src)
  ∧ (src.unique = false →
      (src.idn ++ " conflicts with " ++ ((reg.lookup src.idn).getD ""))
        ∈ Source.errs fs reg src)
  ∧ (src.readable fs = false → src.unique = false →
      Source.err fs reg src
        = "not readable" ++ ","
            ++ (src.idn ++ " conflicts with " ++ ((reg.lookup src.idn).getD "")))
  ∧ (Source.err fs reg src = "" ↔ Source.errs fs reg src = []) := by
  refine ⟨?_, ?_, ?_, ?_⟩
  · intro hr
    simp [Source.errs, hr]
  · intro hu
    simp [Source.errs, Source.unique_idn, hu]
  · intro hr hu
    simp [Source.err, Source.errs, Source.unique_idn, hr, hu, joinComma]
  · rw [err_eq_empty_iff]
    unfold Source.errs Source.unique_idn
    by_cases hr : src.readable fs <;> by_cases hu : src.unique <;>
      simp [hr, hu]

/-- Witness for C9 at an unreadable, non-unique source. -/
theorem C9_w :
    "not readable" ∈ Source.errs fsNoRead [("archive", "/a/archive")]
        { path := "/b/archive", idn := "archive", excludes := [],
          unique := false }
  ∧ Source.err fsNoRead [("archive", "/a/archive")]
        { path := "/b/archive", idn := "archive", excludes := [],
          unique := false }
      = "not readable" ++ ","
          ++ ("archive" ++ " conflicts with " ++ "/a/archive") := by
  have h := C9_err_independent fsNoRead [("archive", "/a/archive")]
    { path := "/b/archive", idn := "archive", excludes := [], unique := false }
  exact ⟨h.1 rfl, h.2.2.1 rfl rfl⟩

lemma buildSources_length (reg : Reg) (ss : List String) :
    ((buildSources reg ss).1).length = ss.length := by
  induction ss generalizing reg with
  | nil => simp [buildSources]
  | cons s rest ih => simp [buildSources, ih]

lemma buildSources_get? (reg : Reg) (ss : List String) (i : Nat) :
    ((buildSources reg ss).1)[i]? =
      (ss[i]?).map
        (fun s => (mkSource ((buildSources reg (ss.take i)).2) s).1) := by
  induction ss generalizing reg i with
  | nil => simp [buildSources]
  | cons s rest ih =>
    cases i with
    | zero => simp [buildSources]
    | succ n => simp [buildSources, ih]

lemma buildSources_snd_lookup (reg : Reg) (ss : List String) (k : String) :
    (((buildSources reg ss).2).lookup k).isSome
      ↔ (reg.lookup k).isSome ∨ ∃ s ∈ ss, idnOf s = k := by
  induction ss generalizing reg with
  | nil => simp [buildSources]
  | cons s rest ih =>
    simp only [buildSources]
    rw [ih, mkSource_snd_lookup]
    simp only [List.mem_cons]
    constructor
    · rintro ((h | h) | ⟨x, hx, hk⟩)
      · exact Or.inl h
      · exact Or.inr ⟨s, Or.inl rfl, h⟩
      · exact Or.inr ⟨x, Or.inr hx, hk⟩
    · rintro (h | ⟨x, rfl | hx, hk⟩)
      · exact Or.inl (Or.inl h)
      · exact Or.inl (Or.inr hk)
      · exact Or.inr ⟨x, hx, hk⟩

/-- Claim C4: when two entries share a final path component, the
later-constructed source is marked non-unique at construction time, its
readiness reasons contain a conflict message and its err is nonempty (not
ok); and the first-registered entry carrying that identifier is unique, with
no conflict among its reasons. -/
theorem C4_duplicate_identifier (fs : FS) (ss : List String) (i j : Nat)
    (hi : i < ss.length) (hj : j < ss.length) (hij : i < j)
    (hsame : idnOf ss[i] = idnOf ss[j]) :
    (((buildSources [] ss).1)[j]?.map Source.unique = some false)
  ∧ (∃ src q, ((buildSources [] ss).1)[j]? = some src
       ∧ (src.idn ++ " conflicts with " ++ q)
           ∈ Source.errs fs ((buildSources [] ss).2) src
       ∧ Source.err fs ((buildSources [] ss).2) src ≠ "")
  ∧ ((∀ k, ∀ hk : k < ss.length, k < i → idnOf ss[k] ≠ idnOf ss[i]) →
      ∃ src, ((buildSources [] ss).1)[i]? = some src
        ∧ src.unique = true
        ∧ ∀ r ∈ Source.errs fs ((buildSources [] ss).2) src,
            r = "not readable") := by
  have hgetj : ((buildSources [] ss).1)[j]? =
      some ((mkSource ((buildSources [] (ss.take j)).2) (ss[j])).1) := by
    rw [buildSources_get?, List.getElem?_eq_getElem hj]
    rfl
  have hmemj : ss[i] ∈ ss.take j := by
    have h1 : i < (ss.take j).length := by
      simp [List.length_take]; omega
    have h2 : (ss.take j)[i] = ss[i] := List.getElem_take ss
    rw [← h2]
    exact List.getElem_mem h1
  have hlookj :
      ((((buildSources [] (ss.take j)).2)).lookup (idnOf ss[j])).isSome := by
    rw [buildSources_snd_lookup]
    exact Or.inr ⟨ss[i], hmemj, hsame⟩
  have huj : (mkSource ((buildSources [] (ss.take j)).2) (ss[j])).1.unique
      = false := by
    rw [mkSource_unique]
    simp [hlookj]
  refine ⟨?_, ?_, ?_⟩
  · rw [hgetj]
    simp [huj]
  · refine ⟨(mkSource ((buildSources [] (ss.take j)).2) (ss[j])).1,
      ((((buildSources [] ss).2)).lookup
        ((mkSource ((buildSources [] (ss.take j)).2) (ss[j])).1.idn)).getD "",
      hgetj, ?_, ?_⟩
    · simp [Source.errs, Source.unique_idn, huj]
    · intro hemp
      rw [err_eq_empty_iff] at hemp
      rw [huj] at hemp
      exact absurd hemp.2 (by simp)
  · intro hfirst
    have hgeti : ((buildSources [] ss).1)[i]? =
        some ((mkSource ((buildSources [] (ss.take i)).2) (ss[i])).1) := by
      rw [buildSources_get?, List.getElem?_eq_getElem hi]
      rfl
    have hnolook :
        ¬ ((((buildSources [] (ss.take i)).2)).lookup (idnOf ss[i])).isSome := by
      rw [buildSources_snd_lookup]
      rintro (habs | ⟨x, hx, hkx⟩)
      · simp [List.lookup] at habs
      · rw [List.mem_iff_get] at hx
        obtain ⟨⟨m, hm⟩, hv⟩ := hx
        have hm2 : m < i ∧ m < ss.length := by
          have := hm
          simp [List.length_take] at this
          omega
        have h3 : (ss.take i)[m] = ss[m] := by
          exact List.getElem_take ss
        have h4 : ss[m] = x := by
          rw [← h3]
          simpa using hv
        exact hfirst m hm2.2 hm2.1 (by rw [h4]; exact hkx)
    have hui : (mkSource ((buildSources [] (ss.take i)).2) (ss[i])).1.unique
        = true := by
      rw [mkSource_unique]
      simp only [Bool.not_eq_true']
      exact Bool.of_not_eq_true (by simpa using hnolook)
    refine ⟨(mkSource ((buildSources [] (ss.take i)).2) (ss[i])).1,
      hgeti, hui, ?_⟩
    intro r hr
    by_cases hrd :
        (mkSource ((buildSources [] (ss.take i)).2) (ss[i])).1.readable fs = true
    · simp [Source.errs, Source.unique_idn, hui, hrd] at hr
    · simp only [Bool.not_eq_true] at hrd
      simp [Source.errs, Source.unique_idn, hui, hrd] at hr
      exact hr

/-- Witness for C4: two sources named archive. -/
theorem C4_w :
    (((buildSources [] ["/a/archive", "/b/archive"]).1)[1]?.map Source.unique
        = some false)
  ∧ (∃ src q, ((buildSources [] ["/a/archive", "/b/archive"]).1)[1]? = some src
       ∧ (src.idn ++ " conflicts with " ++ q)
           ∈ Source.errs fsAll
               ((buildSources [] ["/a/archive", "/b/archive"]).2) src
       ∧ Source.err fsAll
             ((buildSources [] ["/a/archive", "/b/archive"]).2) src ≠ "") := by
  have h := C4_duplicate_identifier fsAll ["/a/archive", "/b/archive"] 0 1
    (by decide) (by decide) (by decide) (by decide)
  exact ⟨h.1, h.2.1⟩

lemma rsyncEvents_length (ex : Nat → Int) (t : Target) (i : Nat)
    (l : List Source) :
    (rsyncEvents ex t i l).length = l.length := by
  induction l generalizing i with
  | nil => simp [rsyncEvents]
  | cons s rest ih => simp [rsyncEvents, ih]

lemma rsyncEvents_get? (ex : Nat → Int) (t : Target) (i j : Nat)
    (l : List Source) :
    (rsyncEvents ex t i l)[j]? =
      (l[j]?).map (fun s => Event.rsyncCall (t.rsyncArgs s) (ex (i + j))) := by
  induction l generalizing i j with
  | nil => simp [rsyncEvents]
  | cons s rest ih =>
    cases j with
    | zero => simp [rsyncEvents]
    | succ n =>
      simp only [rsyncEvents, List.getElem?_cons_succ]
      rw [ih]
      have harith : i + 1 + n = i + (n + 1) := by omega
      rw [harith]

lemma foldl_append_bind (pre : List String) (f : String → List String)
    (l : List String) :
    l.foldl (fun a e => a ++ f e) pre = pre ++ l.flatMap f := by
  induction l generalizing pre with
  | nil => simp
  | cons x xs ih => simp [List.foldl_cons, ih, List.flatMap_cons, List.append_assoc]

lemma rsyncArgs_eq (t : Target) (s : Source) :
    t.rsyncArgs s
      = ["rsync", "-i", "--info=progress2", "-a", "--links", "--delete",
         "--delete-excluded"]
        ++ (s.excludes.flatMap (fun e => ["--exclude", s.idn ++ "/" ++ e]))
        ++ [s.path, t.path] := by
  unfold Target.rsyncArgs
  rw [foldl_append_bind]

/-- Claim C10: neither assertion in the orchestrator can fail: Target.create
is only called when the target does not exist, so its precondition assert
holds, and the sanity assert in main is only reached once the target exists
(originally or freshly created) and has passed the writability check. -/
theorem C10_asserts_unreachable (fs : FS) (inputs : Nat → String)
    (rsyncExit : Nat → Int) (mkdirOk autoconfirm : Bool)
    (srcs : List Source) (reg : Reg) (tgt : Target) :
    (mainRun fs inputs rsyncExit mkdirOk autoconfirm srcs reg tgt).2
      ≠ MainResult.assertFail := by
  unfold mainRun Target.create
  by_cases hv : srcs.any (fun s => Source.err fs reg s != "") = true
  · simp [hv]
  · rw [Bool.not_eq_true] at hv
    by_cases he : tgt.existsB fs = true
    · by_cases hw : tgt.writableB fs = true
      · rcases hc : confirm false (inputs 0) with _ | c <;>
          simp [hv, he, hw, hc, Target.sanity]
      · rw [Bool.not_eq_true] at hw
        simp [hv, he, hw]
    · rw [Bool.not_eq_true] at he
      rcases hc : confirm false (inputs 0) with _ | c
      · by_cases hm : mkdirOk = true
        · have he2 : tgt.existsB (fs.mkdirs tgt.path) = true := by
            simp [Target.existsB, FS.mkdirs]
          by_cases hw2 : tgt.writableB (fs.mkdirs tgt.path) = true
          · rcases hc2 : confirm false (inputs 1) with _ | c2 <;>
              simp [hv, he, hw2, hc, hc2, hm, he2, Target.sanity]
          · rw [Bool.not_eq_true] at hw2
            simp [hv, he, hw2, hc, hm]
        · simp [hv, he, hc, hm]
      · simp [hv, he, hc]

/-- Witness for C10 on a concrete sane run. -/
theorem C10_w :
    (mainRun fsAll (fun _ => "y") (fun _ => 0) true false
        (buildSources [] ["/data/photos"]).1
        (buildSources [] ["/data/photos"]).2 { path := "/backup" }).2
      ≠ MainResult.assertFail :=
  C10_asserts_unreachable fsAll (fun _ => "y") (fun _ => 0) true false
    (buildSources [] ["/data/photos"]).1
    (buildSources [] ["/data/photos"]).2 { path := "/backup" }

/-- Claim C5: when some source fails its sanity check, the run renders the
status report of every source (in configuration order) and then exits with
code 1; the trace holds nothing but the per-source status events: no mkdir,
no input read, no rsync. -/
theorem C5_validation_failure (fs : FS) (inputs : Nat → String)
    (rsyncExit : Nat → Int) (mkdirOk autoconfirm : Bool)
    (srcs : List Source) (reg : Reg) (tgt : Target)
    (hbad : ∃ s ∈ srcs, Source.err fs reg s ≠ "") :
    mainRun fs inputs rsyncExit mkdirOk autoconfirm srcs reg tgt
        = (srcs.map (fun s => Event.showSource s.path), MainResult.exited 1)
  ∧ ∀ e ∈ srcs.map (fun s => Event.showSource s.path),
      ∃ p, e = Event.showSource p := by
  have hv : srcs.any (fun s => Source.err fs reg s != "") = true := by
    rw [List.any_eq_true]
    obtain ⟨s, hs, hne⟩ := hbad
    exact ⟨s, hs, bne_iff_ne.mpr hne⟩
  constructor
  · simp [mainRun, hv]
  · intro e he
    simp only [List.mem_map] at he
    obtain ⟨s, _, rfl⟩ := he
    exact ⟨s.path, rfl⟩

/-- Witness for C5 with an unreadable source. -/
theorem C5_w :
    mainRun fsNoRead (fun _ => "y") (fun _ => 0) true false
        (buildSources [] ["/data/photos"]).1
        (buildSources [] ["/data/photos"]).2 { path := "/backup" }
      = ([Event.showSource "/data/photos"], MainResult.exited 1) := by
  have h := C5_validation_failure fsNoRead (fun _ => "y") (fun _ => 0) true false
    (buildSources [] ["/data/photos"]).1
    (buildSources [] ["/data/photos"]).2 { path := "/backup" } (by decide)
  exact h.1.trans (by decide)

/-- Claim C6: in a run that reaches the sync phase, rsync is invoked once per
source, in configuration order, with the archive, links, delete and
delete-excluded flags, one exclusion flag per pattern rendered as the source
identifier, a slash and the pattern, and the source path and target root as
the two final arguments; the exit codes of the invocations (the rsyncExit
oracle, arbitrary here, nonzero values included) influence neither the later
invocations nor the result. -/
theorem C6_rsync_per_source (fs : FS) (inputs : Nat → String)
    (rsyncExit : Nat → Int) (mkdirOk autoconfirm : Bool)
    (srcs : List Source) (reg : Reg) (tgt : Target)
    (hok : ∀ s ∈ srcs, Source.err fs reg s = "")
    (hex : tgt.existsB fs = true)
    (hw : tgt.writableB fs = true)
    (hy : inputs 0 = "y") :
    mainRun fs inputs rsyncExit mkdirOk autoconfirm srcs reg tgt
        = (srcs.map (fun s => Event.showSource s.path)
            ++ srcs.map (fun s => Event.showDest (joinPath tgt.path s.idn))
            ++ [Event.readInput "Proceed?"]
            ++ rsyncEvents rsyncExit tgt 0 srcs, MainResult.completed)
  ∧ (rsyncEvents rsyncExit tgt 0 srcs).length = srcs.length
  ∧ (∀ j, (rsyncEvents rsyncExit tgt 0 srcs)[j]?
        = (srcs[j]?).map
            (fun s => Event.rsyncCall (tgt.rsyncArgs s) (rsyncExit j)))
  ∧ (∀ s, tgt.rsyncArgs s
        = ["rsync", "-i", "--info=progress2", "-a", "--links", "--delete",
           "--delete-excluded"]
          ++ (s.excludes.flatMap (fun e => ["--exclude", s.idn ++ "/" ++ e]))
          ++ [s.path, tgt.path]) := by
  have hv : srcs.any (fun s => Source.err fs reg s != "") = false := by
    rw [List.any_eq_false]
    intro s hs
    simp [bne_iff_ne]
    exact hok s hs
  refine ⟨?_, rsyncEvents_length rsyncExit tgt 0 srcs, ?_, ?_⟩
  · simp [mainRun, hv, hex, hw, Target.sanity, hy, confirm]
  · intro j
    rw [rsyncEvents_get?]
    simp
  · intro s
    exact rsyncArgs_eq tgt s

/-- Witness for C6: one source, one rsync invocation with a nonzero exit. -/
theorem C6_w :
    mainRun fsAll (fun _ => "y") (fun _ => 1) true false
        (buildSources [] ["/data/photos"]).1
        (buildSources [] ["/data/photos"]).2 { path := "/backup" }
      = ([Event.showSource "/data/photos", Event.showDest "/backup/photos",
          Event.readInput "Proceed?",
          Event.rsyncCall ["rsync", "-i", "--info=progress2", "-a", "--links",
            "--delete", "--delete-excluded", "/data/photos", "/backup"] 1],
         MainResult.completed) := by
  have h := C6_rsync_per_source fsAll (fun _ => "y") (fun _ => 1) true false
    (buildSources [] ["/data/photos"]).1
    (buildSources [] ["/data/photos"]).2 { path := "/backup" }
    (by decide) (by decide) (by decide) rfl
  exact h.1.trans (by decide)

/-- Claim C1 (code bug): getargs parses the autoconfirm flag, but main never
consults it: neither confirm call site passes the skipped argument.  So the
run is identical for any two values of the flag, and even with the flag set
the final gate still reads a line of input and aborts with exit code 3 on a
non-affirmative answer, where the claim promises an automatic proceed with
no input read. -/
theorem C1_autoconfirm_dead :
    (∀ (fs : FS) (inputs : Nat → String) (rsyncExit : Nat → Int)
       (mkdirOk a b : Bool) (srcs : List Source) (reg : Reg) (tgt : Target),
        mainRun fs inputs rsyncExit mkdirOk a srcs reg tgt
          = mainRun fs inputs rsyncExit mkdirOk b srcs reg tgt)
  ∧ mainRun fsAll (fun _ => "n") (fun _ => 0) true true
        (buildSources [] ["/data/photos"]).1
        (buildSources [] ["/data/photos"]).2 { path := "/backup" }
      = ([Event.showSource "/data/photos", Event.showDest "/backup/photos",
          Event.readInput "Proceed?"], MainResult.exited 3)
  ∧ Event.readInput "Proceed?"
      ∈ (mainRun fsAll (fun _ => "n") (fun _ => 0) true true
          (buildSources [] ["/data/photos"]).1
          (buildSources [] ["/data/photos"]).2 { path := "/backup" }).1 := by
  refine ⟨fun _ _ _ _ _ _ _ _ _ => rfl, by decide, by decide⟩

